import Mathlib

/-!
Shallow embedding of the vis-cli batch OCR tool.

Sources embedded:
- src/vis_cli/libs/ocr_engine.py      (Label, OCRResult, success)
- src/vis_cli/libs/vision_api.py      (analyze_image_with_apikey)
- src/vis_cli/libs/tesseract_engine.py (TesseractEngine.analyze_image)
- src/vis_cli/main.py                 (find_images, save_result, main loop)

External effects (the filesystem, the HTTP transport, the recognizer) are
passed in as explicit values; raised Python exceptions are modelled as
`Except String`.
-/

namespace VisCli

/-- A label/tag with a confidence score (ocr_engine.Label). Scores are
modelled as rationals. -/
structure Label where
  description : String
  score : ℚ
deriving DecidableEq

/-- Unified result structure for all OCR engines (ocr_engine.OCRResult). -/
structure OCRResult where
  image_path : String
  engine : String
  full_text : Option String := none
  labels : List Label := []
  confidence : Option ℚ := none
  error : Option String := none
deriving DecidableEq

/-- Derived property: `success = (error is None)`. -/
def OCRResult.success (r : OCRResult) : Bool :=
  r.error.isNone

/- Path helpers mirroring pathlib: `name`, `stem`, `suffix` of a posix
path string. -/

/-- Characters of the final path component (after the last slash). -/
def nameChars (cs : List Char) : List Char :=
  (cs.reverse.takeWhile (fun c => c ≠ '/')).reverse

/-- Final component of a path (pathlib `Path.name` for plain file paths). -/
def nameOf (p : String) : String :=
  ⟨nameChars p.data⟩

/-- Index of the last dot in a character list, if any (str.rfind of a dot). -/
def lastDotIdx (cs : List Char) : Option Nat :=
  match cs.reverse.findIdx? (fun c => c = '.') with
  | some j => some (cs.length - 1 - j)
  | none => none

/-- Pathlib `Path.stem`: the final component with its extension removed,
where the extension exists only when the last dot sits strictly inside the
name (`0 < i < len(name) - 1`). -/
def stem (p : String) : String :=
  let name := nameOf p
  match lastDotIdx name.data with
  | some i => if 0 < i ∧ i < name.data.length - 1 then ⟨name.data.take i⟩ else name
  | none => name

/-- Pathlib `Path.suffix`: the extension of the final component, with the
same strictly-inside condition on the last dot, otherwise empty. -/
def suffix (p : String) : String :=
  let name := nameOf p
  match lastDotIdx name.data with
  | some i => if 0 < i ∧ i < name.data.length - 1 then ⟨name.data.drop i⟩ else ""
  | none => ""

/-- ASCII lowercasing of a string (str.lower on extensions). -/
def lowerStr (s : String) : String :=
  ⟨s.data.map Char.toLower⟩

/- vision_api.py -/

/-- Structured error object inside a Vision API response entry
(`data["error"]`, with optional `message` and numeric `code` keys). -/
structure VisionError where
  message : Option String
  code : Option Int
deriving DecidableEq

/-- Value of the `fullTextAnnotation` key: a dict that may carry a `text`
key. -/
structure FullTextAnn where
  text : Option String
deriving DecidableEq

/-- One entry of the `responses` array of a Vision API reply.
`fullTextAnn` models the optional `fullTextAnnotation` dict, `labelAnns`
the `labelAnnotations` array (each already carrying `description` and
`score`), `error` the optional structured error object. -/
structure AnnotateEntry where
  fullTextAnn : Option FullTextAnn
  labelAnns : List Label
  error : Option VisionError
deriving DecidableEq

/-- The combined error string built at vision_api.py lines 129-132:
message (default "Unknown error") followed by the numeric code
(default "N/A"). -/
def formatEntryError (e : VisionError) : String :=
  (e.message.getD "Unknown error") ++ " (code: " ++
    (match e.code with
     | some c => toString c
     | none => "N/A") ++ ")"

/-- Outcome of the HTTP exchange: either a transport-level exception
(requests.RequestException or OSError, including failures reading the
image file) or a response with status code, raw body text, and the parsed
`responses` array. -/
inductive HttpOutcome where
  | transportError (msg : String)
  | response (status : Nat) (text : String) (responses : List AnnotateEntry)
deriving DecidableEq

/-- Embedding of `analyze_image_with_apikey` (vision_api.py lines 53-146).
`fileExists` is the `image_path.exists()` check; `outcome` is the HTTP
exchange. A raised exception (VisionAPIError on empty key,
FileNotFoundError on a missing file) is `Except.error`; every other path
returns an OCRResult. -/
def analyze_image_with_apikey (image_path : String) (api_key : String)
    (fileExists : Bool) (outcome : HttpOutcome) : Except String OCRResult :=
  if api_key = "" then
    .error "API_KEY environment variable is not set"
  else if fileExists = false then
    .error ("Image file not found: " ++ image_path)
  else
    match outcome with
    | .transportError msg =>
        .ok { image_path := image_path, engine := "vision_api", error := some msg }
    | .response status text responses =>
        if status ≠ 200 then
          .ok { image_path := image_path, engine := "vision_api",
                error := some ("HTTP " ++ toString status ++ ": " ++ text) }
        else
          match responses with
          | [] =>
              .ok { image_path := image_path, engine := "vision_api",
                    error := some "No response from Vision API" }
          | data :: _ =>
              let full_text := (data.fullTextAnn.getD ⟨none⟩).text
              let labels := data.labelAnns
              let error_msg := data.error.map formatEntryError
              .ok { image_path := image_path, engine := "vision_api",
                    full_text := full_text, labels := labels,
                    confidence := none, error := error_msg }

/- tesseract_engine.py -/

/-- Outcome of the recognizer invocation inside the try block: either a
raised exception (corrupt image, decode failure), or the stripped text
from image_to_string together with the numeric `conf` column of
image_to_data. -/
inductive TessOutcome where
  | raise (msg : String)
  | extracted (text : String) (confs : List ℚ)
deriving DecidableEq

/-- Embedding of `TesseractEngine.analyze_image` (tesseract_engine.py
lines 59-135). `fileExists` is the `image_path.exists()` check. The
Python truthiness tests (`if confidences`, `if normalized_confidence`,
`if text`) are modelled exactly, including 0.0 counting as falsy. -/
def TesseractEngine.analyze_image (image_path : String) (fileExists : Bool)
    (outcome : TessOutcome) : OCRResult :=
  if fileExists = false then
    { image_path := image_path, engine := "tesseract",
      error := some ("Image file not found: " ++ image_path) }
  else
    match outcome with
    | .raise e =>
        { image_path := image_path, engine := "tesseract",
          error := some ("Tesseract error: " ++ e) }
    | .extracted text confs =>
        let confidences := confs.filter (fun c => 0 < c)
        let avg_confidence : Option ℚ :=
          if confidences.length ≠ 0 then
            some (confidences.sum / (confidences.length : ℚ))
          else none
        let normalized_confidence : Option ℚ :=
          avg_confidence.map (fun a => a / 100)
        let labels : List Label :=
          if text ≠ "" then
            [⟨"text",
              match normalized_confidence with
              | some v => if v = 0 then (1 : ℚ) / 2 else v
              | none => (1 : ℚ) / 2⟩]
          else []
        { image_path := image_path, engine := "tesseract",
          full_text := if text ≠ "" then some text else none,
          labels := labels, confidence := normalized_confidence,
          error := none }

/- main.py -/

/-- One filesystem entry seen by `input_dir.glob("**/*")`: its path and
whether it is a regular file. -/
structure FsEntry where
  path : String
  isFile : Bool
deriving DecidableEq

/-- The fixed allow-list of image extensions (main.py line 28). -/
def IMAGE_EXTENSIONS : List String :=
  [".png", ".jpg", ".jpeg", ".bmp", ".gif", ".webp"]

/-- Structural lexicographic comparison of character lists, the order
Python's `sorted` uses on path strings. -/
def charListLe : List Char → List Char → Bool
  | [], _ => true
  | _ :: _, [] => false
  | a :: as, b :: bs =>
    if a < b then true
    else if b < a then false
    else charListLe as bs

/-- Lexicographic comparison of strings (an executable form of `≤`). -/
def strLe (a b : String) : Bool :=
  charListLe a.data b.data

/-- Embedding of `find_images` (main.py lines 74-78): keep regular files
whose lowercased suffix is in the allow-list, then sort the paths
lexicographically. -/
def find_images (fs : List FsEntry) : List String :=
  List.insertionSort (fun a b => strLe a b = true)
    ((fs.filter (fun f =>
        f.isFile && IMAGE_EXTENSIONS.contains (lowerStr (suffix f.path)))).map
      (fun f => f.path))

/-- The persisted record built by `save_result` (main.py lines 81-96):
the dict written to the output file, with labels flattened to
(name, score) pairs. -/
structure Record where
  image : String
  engine : String
  success : Bool
  text : Option String
  labels : List (String × ℚ)
  confidence : Option ℚ
  error : Option String
deriving DecidableEq

/-- Embedding of the dict construction in `save_result`. -/
def save_result (result : OCRResult) : Record :=
  { image := result.image_path, engine := result.engine,
    success := result.success, text := result.full_text,
    labels := result.labels.map (fun l => (l.description, l.score)),
    confidence := result.confidence, error := result.error }

/-- Output file path for one image (main.py line 170):
`output_dir / (img.stem + ext)`. -/
def outFile (output_dir img ext : String) : String :=
  output_dir ++ "/" ++ stem img ++ ext

/-- One iteration of the batch loop (main.py lines 167-175): run the
engine; when it returns a result, persist one record and count success;
when it raises one of the caught exception types, log and continue
without writing. The state is (writes so far, success counter). -/
def loopStep (analyze : String → Except String OCRResult)
    (output_dir ext : String)
    (st : List (String × Record) × Nat) (img : String) :
    List (String × Record) × Nat :=
  match analyze img with
  | .ok result =>
      (st.1 ++ [(outFile output_dir img ext, save_result result)],
       st.2 + if result.success then 1 else 0)
  | .error _ => st

/-- The batch loop over a list of image paths. -/
def runLoop (analyze : String → Except String OCRResult)
    (output_dir ext : String) (imgs : List String) :
    List (String × Record) × Nat :=
  imgs.foldl (loopStep analyze output_dir ext) ([], 0)

/-- Observable outcome of a `main` run: the exit code, the sequence of
(path, record) writes, and the final success counter. -/
structure RunOutcome where
  exitCode : Nat
  writes : List (String × Record)
  successCount : Nat
deriving DecidableEq

/-- Whether the KeyboardInterrupt fires during the loop: it aborts before
image index `k` and is observable only when `k` is within the batch. -/
def interruptedFlag (interruptAt : Option Nat) (n : Nat) : Bool :=
  match interruptAt with
  | some k => decide (k < n)
  | none => false

/-- Embedding of `main` (main.py lines 131-183) from the directory check
onward. `isDir` is `args.input_dir.is_dir()`; `fs` the directory tree;
`initOk` whether engine construction succeeded; `analyze` the engine's
per-image behaviour (`Except.error` for a raised, caught exception);
`interruptAt` an optional index before which KeyboardInterrupt fires.
Exit codes: 1 for a bad directory or failed engine construction, 0 for an
empty batch, 130 on interrupt, else 0 iff the success counter equals the
number of images. -/
def mainRun (isDir : Bool) (fs : List FsEntry) (initOk : Bool)
    (analyze : String → Except String OCRResult)
    (output_dir : String) (formatJsonl : Bool)
    (interruptAt : Option Nat) : RunOutcome :=
  if isDir = false then ⟨1, [], 0⟩
  else
    let images := find_images fs
    if images.isEmpty then ⟨0, [], 0⟩
    else if initOk = false then ⟨1, [], 0⟩
    else
      let ext := if formatJsonl then ".jsonl" else ".json"
      let processed := images.take (interruptAt.getD images.length)
      let st := runLoop analyze output_dir ext processed
      if interruptedFlag interruptAt images.length then ⟨130, st.1, st.2⟩
      else ⟨if st.2 = images.length then 0 else 1, st.1, st.2⟩

/-- Final content of the file at path `p` after a sequence of whole-file
writes: the last record written there, if any. -/
def lastWrite (writes : List (String × Record)) (p : String) : Option Record :=
  ((writes.filter (fun w => w.1 = p)).getLast?).map (fun w => w.2)

/-- The write one loop iteration produces for an image, if any: the
(output path, record) pair when the engine returns a result, nothing when
it raises. -/
def writeOf (analyze : String → Except String OCRResult)
    (output_dir ext img : String) : Option (String × Record) :=
  match analyze img with
  | .ok r => some (outFile output_dir img ext, save_result r)
  | .error _ => none

/-- Whether the engine returns a successful result for an image. -/
def okSuccess (analyze : String → Except String OCRResult) (img : String) :
    Bool :=
  match analyze img with
  | .ok r => r.success
  | .error _ => false

/- Lemmas about the embedding. -/

theorem charListLe_iff : ∀ as bs : List Char, charListLe as bs = true ↔ ¬ bs < as := by
  intro as
  induction as with
  | nil =>
    intro bs
    constructor
    · intro _ h; cases h
    · intro _; rfl
  | cons a as ih =>
    intro bs
    cases bs with
    | nil =>
      constructor
      · intro h; simp [charListLe] at h
      · intro h; exact absurd List.Lex.nil h
    | cons b bs =>
      rcases lt_trichotomy a b with hab | heq | hba
      · constructor
        · intro _ h
          cases h with
          | cons h3 => exact absurd hab (lt_irrefl _)
          | rel h' => exact absurd hab (lt_asymm h')
        · intro _; simp [charListLe, hab]
      · subst heq
        have hstep : charListLe (a :: as) (a :: bs) = charListLe as bs := by
          simp [charListLe, lt_irrefl]
        rw [hstep, ih bs]
        constructor
        · intro h hlt
          cases hlt with
          | cons h3 => exact h h3
          | rel h' => exact absurd h' (lt_irrefl _)
        · intro h hlt; exact h (List.Lex.cons hlt)
      · constructor
        · intro h
          have h1 : ¬ a < b := lt_asymm hba
          simp [charListLe, h1, hba] at h
        · intro h; exact absurd (List.Lex.rel hba) h

theorem strLe_iff (a b : String) : strLe a b = true ↔ a ≤ b := by
  rw [String.le_iff_toList_le, ← not_lt]
  exact charListLe_iff a.data b.data

instance strLe_isTotal : IsTotal String (fun a b => strLe a b = true) :=
  ⟨fun a b => by
    rcases le_total a b with h | h
    · exact Or.inl ((strLe_iff a b).mpr h)
    · exact Or.inr ((strLe_iff b a).mpr h)⟩

instance strLe_isTrans : IsTrans String (fun a b => strLe a b = true) :=
  ⟨fun a b c hab hbc =>
    (strLe_iff a c).mpr (le_trans ((strLe_iff a b).mp hab) ((strLe_iff b c).mp hbc))⟩

theorem runLoop_foldl_writes (analyze : String → Except String OCRResult)
    (d e : String) :
    ∀ (imgs : List String) (st : List (String × Record) × Nat),
      (imgs.foldl (loopStep analyze d e) st).1 =
        st.1 ++ imgs.filterMap (writeOf analyze d e) := by
  intro imgs
  induction imgs with
  | nil => intro st; simp
  | cons img imgs ih =>
    intro st
    rw [List.foldl_cons, ih, List.filterMap_cons]
    cases h : analyze img with
    | ok r => simp [loopStep, writeOf, h]
    | error msg => simp [loopStep, writeOf, h]

theorem runLoop_writes (analyze : String → Except String OCRResult)
    (d e : String) (imgs : List String) :
    (runLoop analyze d e imgs).1 = imgs.filterMap (writeOf analyze d e) := by
  rw [runLoop, runLoop_foldl_writes]
  simp

theorem runLoop_foldl_count (analyze : String → Except String OCRResult)
    (d e : String) :
    ∀ (imgs : List String) (st : List (String × Record) × Nat),
      (imgs.foldl (loopStep analyze d e) st).2 =
        st.2 + (imgs.filter (okSuccess analyze)).length := by
  intro imgs
  induction imgs with
  | nil => intro st; simp
  | cons img imgs ih =>
    intro st
    rw [List.foldl_cons, ih, List.filter_cons]
    cases h : analyze img with
    | ok r =>
      cases hs : r.success with
      | true => simp [loopStep, okSuccess, h, hs]; omega
      | false => simp [loopStep, okSuccess, h, hs]
    | error msg => simp [loopStep, okSuccess, h]

theorem runLoop_count (analyze : String → Except String OCRResult)
    (d e : String) (imgs : List String) :
    (runLoop analyze d e imgs).2 = (imgs.filter (okSuccess analyze)).length := by
  rw [runLoop, runLoop_foldl_count]
  simp

theorem filter_length_eq_iff {α : Type} (p : α → Bool) :
    ∀ l : List α, ((l.filter p).length = l.length ↔ ∀ x ∈ l, p x = true) := by
  intro l
  induction l with
  | nil => simp
  | cons a l ih =>
    cases h : p a with
    | true => simp [List.filter_cons, h, ih]
    | false =>
      have hle := List.length_filter_le p l
      simp only [List.filter_cons, h, if_neg, Bool.false_eq_true, not_false_iff,
        ite_false, List.length_cons]
      constructor
      · intro heq; omega
      · intro hall
        exact absurd (hall a (List.mem_cons_self a l)) (by simp [h])

theorem vision_ok_exists (p key : String) (hkey : ¬ key = "") (oc : HttpOutcome) :
    ∃ r, analyze_image_with_apikey p key true oc = .ok r ∧ r.confidence = none := by
  cases oc with
  | transportError msg =>
      refine ⟨{ image_path := p, engine := "vision_api", error := some msg }, ?_, rfl⟩
      simp [analyze_image_with_apikey, hkey]
  | response status text resps =>
      by_cases hst : status = 200
      · cases resps with
        | nil =>
            refine ⟨{ image_path := p, engine := "vision_api",
                      error := some "No response from Vision API" }, ?_, rfl⟩
            simp [analyze_image_with_apikey, hkey, hst]
        | cons data rest =>
            refine ⟨{ image_path := p, engine := "vision_api",
                      full_text := (data.fullTextAnn.getD ⟨none⟩).text,
                      labels := data.labelAnns,
                      error := data.error.map formatEntryError }, ?_, rfl⟩
            simp [analyze_image_with_apikey, hkey, hst]
      · refine ⟨{ image_path := p, engine := "vision_api",
                  error := some ("HTTP " ++ toString status ++ ": " ++ text) }, ?_, rfl⟩
        simp [analyze_image_with_apikey, hkey, hst]

theorem filtered_avg_pos (l : List ℚ)
    (h : l.filter (fun c => 0 < c) ≠ []) :
    0 < (l.filter (fun c => 0 < c)).sum /
        ((l.filter (fun c => 0 < c)).length : ℚ) := by
  apply div_pos
  · apply List.sum_pos
    · intro x hx
      exact of_decide_eq_true (List.mem_filter.mp hx).2
    · exact h
  · exact_mod_cast List.length_pos.mpr h

/- Claim theorems. -/

/-- C1: remote engine partial-success policy. On a 200 response with at
least one result entry, analyze_image_with_apikey extracts full_text and
the labels from the first entry unconditionally; the error field is set
iff the entry carries a structured error, combining the service message
and numeric code into one string while full_text and labels stay
populated; an entry with a full-text annotation, two label annotations
and a structured error yields success=false, non-absent full_text, two
labels, and an error containing the service message. -/
theorem vision_partial_success_policy
    (p key text : String) (hkey : key ≠ "")
    (data : AnnotateEntry) (rest : List AnnotateEntry) :
    (analyze_image_with_apikey p key true (.response 200 text (data :: rest)) =
      .ok { image_path := p, engine := "vision_api",
            full_text := (data.fullTextAnn.getD ⟨none⟩).text,
            labels := data.labelAnns,
            confidence := none,
            error := data.error.map formatEntryError }) ∧
    (∀ r, analyze_image_with_apikey p key true
        (.response 200 text (data :: rest)) = .ok r →
      (r.full_text = (data.fullTextAnn.getD ⟨none⟩).text ∧
       r.labels = data.labelAnns ∧
       (r.error = none ↔ data.error = none) ∧
       (∀ e, data.error = some e →
          r.error = some ((e.message.getD "Unknown error") ++ " (code: " ++
            (match e.code with
             | some c => toString c
             | none => "N/A") ++ ")") ∧
          r.success = false))) ∧
    (analyze_image_with_apikey "i.png" "k" true
        (.response 200 ""
          [⟨some ⟨some "hello"⟩, [⟨"cat", 1⟩, ⟨"dog", 1⟩],
            some ⟨some "quota exceeded", some 8⟩⟩]) =
      .ok { image_path := "i.png", engine := "vision_api",
            full_text := some "hello",
            labels := [⟨"cat", 1⟩, ⟨"dog", 1⟩],
            confidence := none,
            error := some ("quota exceeded" ++ " (code: 8)") }) := by
  have hmain : analyze_image_with_apikey p key true
      (.response 200 text (data :: rest)) =
      .ok { image_path := p, engine := "vision_api",
            full_text := (data.fullTextAnn.getD ⟨none⟩).text,
            labels := data.labelAnns,
            confidence := none,
            error := data.error.map formatEntryError } := by
    simp [analyze_image_with_apikey, hkey]
  refine ⟨hmain, ?_, rfl⟩
  intro r h
  rw [hmain] at h
  injection h with h
  subst h
  refine ⟨rfl, rfl, ?_, ?_⟩
  · simp
  · intro e he
    constructor
    · simp [he, formatEntryError]
    · simp [he, OCRResult.success]

/-- C1 witness: the theorem applied at a concrete entry carrying both
annotation data and a structured error. -/
theorem vision_partial_success_policy_witness :
    analyze_image_with_apikey "w.png" "k" true
        (.response 200 ""
          [⟨some ⟨some "txt"⟩, [⟨"tree", 1⟩],
            some ⟨some "boom", some 3⟩⟩]) =
      .ok { image_path := "w.png", engine := "vision_api",
            full_text := some "txt",
            labels := [⟨"tree", 1⟩],
            confidence := none,
            error := some "boom (code: 3)" } :=
  (vision_partial_success_policy "w.png" "k" "" (by decide)
    (AnnotateEntry.mk (some ⟨some "txt"⟩) [⟨"tree", 1⟩]
      (some ⟨some "boom", some 3⟩)) []).1

/-- C4: every non-2xx HTTP response yields a per-image error result (not
a raised fault) whose error string carries the numeric status code and
the raw response body; a 400 with body "Bad Request" yields an error
containing "400" and the body, with success=false. -/
theorem vision_http_error (p key text : String) (status : Nat)
    (resp : List AnnotateEntry) (hkey : key ≠ "")
    (hst : status < 200 ∨ 300 ≤ status) :
    (analyze_image_with_apikey p key true (.response status text resp) =
      .ok { image_path := p, engine := "vision_api",
            error := some ("HTTP " ++ toString status ++ ": " ++ text) }) ∧
    (∀ r, analyze_image_with_apikey p key true
        (.response status text resp) = .ok r →
      r.success = false ∧
      (∃ a b, r.error = some (a ++ toString status ++ b ++ text))) ∧
    (analyze_image_with_apikey "i.png" "k" true (.response 400 "Bad Request" []) =
      .ok { image_path := "i.png", engine := "vision_api",
            error := some "HTTP 400: Bad Request" }) := by
  have hne : status ≠ 200 := by omega
  have hmain : analyze_image_with_apikey p key true
      (.response status text resp) =
      .ok { image_path := p, engine := "vision_api",
            error := some ("HTTP " ++ toString status ++ ": " ++ text) } := by
    simp [analyze_image_with_apikey, hkey, hne]
  refine ⟨hmain, ?_, rfl⟩
  intro r h
  rw [hmain] at h
  injection h with h
  subst h
  exact ⟨rfl, "HTTP ", ": ", rfl⟩

/-- C4 witness: the theorem applied at status 404 with body "nope". -/
theorem vision_http_error_witness :
    analyze_image_with_apikey "w.png" "k" true (.response 404 "nope" []) =
      .ok { image_path := "w.png", engine := "vision_api",
            error := some ("HTTP " ++ toString 404 ++ ": " ++ "nope") } :=
  (vision_http_error "w.png" "k" "nope" 404 [] (by decide) (by omega)).1

/-- C9: the remote engine never populates the confidence field on any
path (raised faults have no result at all; every returned result carries
confidence none), while the local engine can populate it. -/
theorem vision_confidence_always_absent :
    (∀ (p key : String) (fe : Bool) (oc : HttpOutcome) (r : OCRResult),
        analyze_image_with_apikey p key fe oc = .ok r → r.confidence = none) ∧
    (TesseractEngine.analyze_image "x.png" true
        (.extracted "hi" [80])).confidence = some (4/5) := by
  constructor
  · intro p key fe oc r h
    by_cases hkey : key = ""
    · simp [analyze_image_with_apikey, hkey] at h
    · cases fe with
      | false => simp [analyze_image_with_apikey, hkey] at h
      | true =>
          obtain ⟨r', hr', hc⟩ := vision_ok_exists p key hkey oc
          rw [hr'] at h
          injection h with h
          exact h ▸ hc
  · norm_num [TesseractEngine.analyze_image, List.filter, List.sum]

/-- C9 witness: a concrete transport failure returns a result whose
confidence is none. -/
theorem vision_confidence_always_absent_witness :
    ∃ r, analyze_image_with_apikey "a.png" "k" true (.transportError "boom") =
        .ok r ∧ r.confidence = none :=
  ⟨{ image_path := "a.png", engine := "vision_api", error := some "boom" },
    rfl,
    vision_confidence_always_absent.1 "a.png" "k" true (.transportError "boom")
      { image_path := "a.png", engine := "vision_api", error := some "boom" }
      rfl⟩

/-- C5: Tesseract confidence aggregation. Non-positive sentinel entries
are discarded; the remaining strictly-positive values are averaged and
divided by 100; when none remain the confidence is absent, not zero.
[95, 88, 92, -1, 0] aggregates to 11/12 and [-1, 0] to none. -/
theorem tesseract_confidence_aggregation :
    (∀ (p t : String) (confs : List ℚ),
        (TesseractEngine.analyze_image p true (.extracted t confs)).confidence =
          (if (confs.filter (fun c => 0 < c)).length ≠ 0 then
            some ((confs.filter (fun c => 0 < c)).sum /
              ((confs.filter (fun c => 0 < c)).length : ℚ) / 100)
          else none)) ∧
    (∀ (p t : String) (confs : List ℚ), (∀ c ∈ confs, c ≤ 0) →
        (TesseractEngine.analyze_image p true (.extracted t confs)).confidence =
          none) ∧
    ((TesseractEngine.analyze_image "p" true
        (.extracted "t" [95, 88, 92, -1, 0])).confidence = some (11/12)) ∧
    ((TesseractEngine.analyze_image "p" true
        (.extracted "t" [-1, 0])).confidence = none) := by
  have hgen : ∀ (p t : String) (confs : List ℚ),
      (TesseractEngine.analyze_image p true (.extracted t confs)).confidence =
        (if (confs.filter (fun c => 0 < c)).length ≠ 0 then
          some ((confs.filter (fun c => 0 < c)).sum /
            ((confs.filter (fun c => 0 < c)).length : ℚ) / 100)
        else none) := by
    intro p t confs
    by_cases hc : (confs.filter (fun c => 0 < c)).length ≠ 0 <;>
      simp [TesseractEngine.analyze_image, hc]
  refine ⟨hgen, ?_, ?_, ?_⟩
  · intro p t confs hle
    have hnil : confs.filter (fun c => 0 < c) = [] := by
      rw [List.filter_eq_nil_iff]
      intro a ha
      simp only [decide_eq_true_eq, not_lt]
      exact hle a ha
    rw [hgen]
    simp [hnil]
  · norm_num [TesseractEngine.analyze_image, List.filter, List.sum]
  · norm_num [TesseractEngine.analyze_image, List.filter]

/-- C5 witness: applying the sentinel-only clause at the list [-5]. -/
theorem tesseract_confidence_aggregation_witness :
    (TesseractEngine.analyze_image "w" true (.extracted "t" [-5])).confidence =
      none :=
  tesseract_confidence_aggregation.2.1 "w" "t" [-5] (by
    intro c hc
    rw [List.mem_singleton] at hc
    subst hc
    norm_num)

/-- C6 counterexample: with empty extracted text but a strictly positive
token confidence, the label list is empty as the claim says, yet the
overall confidence is 1/2, not absent — the code computes confidence
from the token confidences independently of the text. -/
theorem tesseract_label_synthesis_cex :
    (TesseractEngine.analyze_image "p.png" true (.extracted "" [50])).full_text =
      none ∧
    (TesseractEngine.analyze_image "p.png" true (.extracted "" [50])).labels =
      [] ∧
    (TesseractEngine.analyze_image "p.png" true (.extracted "" [50])).confidence =
      some (1/2) ∧
    (TesseractEngine.analyze_image "p.png" true (.extracted "" [50])).confidence ≠
      none := by
  have h3 : (TesseractEngine.analyze_image "p.png" true
      (.extracted "" [50])).confidence = some (1/2) := by
    norm_num [TesseractEngine.analyze_image, List.filter, List.sum]
  refine ⟨?_, ?_, h3, ?_⟩
  · norm_num [TesseractEngine.analyze_image, List.filter, List.sum]
  · norm_num [TesseractEngine.analyze_image, List.filter, List.sum]
  · rw [h3]; simp

/-- C6 amended: on a successful analysis, non-empty text yields exactly
one label "text" whose score is the normalized confidence, or 1/2 when
confidence is absent; empty text yields an empty label list and absent
full text; the overall confidence is aggregated from the token
confidences independently of the text and is absent exactly when no
strictly positive token confidence exists. -/
theorem tesseract_label_synthesis_amended (p text : String) (confs : List ℚ) :
    ((TesseractEngine.analyze_image p true (.extracted text confs)).error =
      none) ∧
    (text ≠ "" →
      ∃ s, (TesseractEngine.analyze_image p true (.extracted text confs)).labels =
          [⟨"text", s⟩] ∧
        (((TesseractEngine.analyze_image p true (.extracted text confs)).confidence =
            none ∧ s = 1/2) ∨
          (TesseractEngine.analyze_image p true
            (.extracted text confs)).confidence = some s)) ∧
    (text = "" →
      (TesseractEngine.analyze_image p true (.extracted text confs)).labels =
        [] ∧
      (TesseractEngine.analyze_image p true (.extracted text confs)).full_text =
        none) ∧
    ((TesseractEngine.analyze_image p true (.extracted text confs)).confidence =
        none ↔
      confs.filter (fun c => 0 < c) = []) := by
  by_cases hnil : confs.filter (fun c => 0 < c) = []
  · refine ⟨by simp [TesseractEngine.analyze_image], ?_, ?_, ?_⟩
    · intro ht
      refine ⟨1/2, ?_, Or.inl ⟨?_, rfl⟩⟩
      · simp [TesseractEngine.analyze_image, hnil, ht]
      · simp [TesseractEngine.analyze_image, hnil]
    · intro ht
      constructor <;> simp [TesseractEngine.analyze_image, hnil, ht]
    · simp [TesseractEngine.analyze_image, hnil]
  · have hlen : (confs.filter (fun c => 0 < c)).length ≠ 0 := by
      simpa [List.length_eq_zero] using hnil
    have havg : 0 < (confs.filter (fun c => 0 < c)).sum /
        ((confs.filter (fun c => 0 < c)).length : ℚ) :=
      filtered_avg_pos confs hnil
    have hv : 0 < (confs.filter (fun c => 0 < c)).sum /
        ((confs.filter (fun c => 0 < c)).length : ℚ) / 100 :=
      div_pos havg (by norm_num)
    have hvne : (confs.filter (fun c => 0 < c)).sum /
        ((confs.filter (fun c => 0 < c)).length : ℚ) / 100 ≠ 0 :=
      ne_of_gt hv
    refine ⟨by simp [TesseractEngine.analyze_image], ?_, ?_, ?_⟩
    · intro ht
      refine ⟨(confs.filter (fun c => 0 < c)).sum /
        ((confs.filter (fun c => 0 < c)).length : ℚ) / 100, ?_, Or.inr ?_⟩
      · simp [TesseractEngine.analyze_image, hlen, ht, hvne]
      · simp [TesseractEngine.analyze_image, hlen]
    · intro ht
      constructor <;> simp [TesseractEngine.analyze_image, ht]
    · simp [TesseractEngine.analyze_image, hlen, hnil]

/-- C6 amended witness: the theorem applied at text "hi" with
confidences [95, 88, 92, -1, 0]. -/
theorem tesseract_label_synthesis_amended_witness :
    ∃ s, (TesseractEngine.analyze_image "w.png" true
        (.extracted "hi" [95, 88, 92, -1, 0])).labels = [⟨"text", s⟩] ∧
      (((TesseractEngine.analyze_image "w.png" true
          (.extracted "hi" [95, 88, 92, -1, 0])).confidence = none ∧ s = 1/2) ∨
        (TesseractEngine.analyze_image "w.png" true
          (.extracted "hi" [95, 88, 92, -1, 0])).confidence = some s) :=
  (tesseract_label_synthesis_amended "w.png" "hi" [95, 88, 92, -1, 0]).2.1
    (by decide)

/-- C8: deterministic enumeration. find_images returns exactly the
regular files whose extension, lowercased, is in the fixed allow-list,
in lexicographically sorted order; b.png and a.jpg in the same directory
come out as a.jpg then b.png. -/
theorem find_images_deterministic (fs : List FsEntry) :
    List.Sorted (· ≤ ·) (find_images fs) ∧
    (∀ p, p ∈ find_images fs ↔
      ∃ e, e ∈ fs ∧ e.path = p ∧ e.isFile = true ∧
        lowerStr (suffix p) ∈ IMAGE_EXTENSIONS) ∧
    find_images [⟨"d/b.png", true⟩, ⟨"d/a.jpg", true⟩] =
      ["d/a.jpg", "d/b.png"] := by
  refine ⟨?_, ?_, by decide⟩
  · have hs := List.sorted_insertionSort (fun a b : String => strLe a b = true)
      ((fs.filter (fun f =>
        f.isFile && IMAGE_EXTENSIONS.contains (lowerStr (suffix f.path)))).map
        (fun f => f.path))
    exact hs.imp (fun h => (strLe_iff _ _).mp h)
  · intro p
    rw [find_images, List.mem_insertionSort, List.mem_map]
    constructor
    · rintro ⟨e, he, rfl⟩
      rw [List.mem_filter] at he
      obtain ⟨hefs, hpred⟩ := he
      rw [Bool.and_eq_true] at hpred
      refine ⟨e, hefs, rfl, hpred.1, ?_⟩
      simpa using hpred.2
    · rintro ⟨e, hefs, rfl, hfile, hext⟩
      refine ⟨e, ?_, rfl⟩
      rw [List.mem_filter]
      refine ⟨hefs, ?_⟩
      rw [Bool.and_eq_true]
      exact ⟨hfile, by simpa using hext⟩

theorem take_getD_of_not_interrupted (l : List String) (ia : Option Nat)
    (h : interruptedFlag ia l.length = false) :
    l.take (ia.getD l.length) = l := by
  cases ia with
  | none => simp
  | some k =>
      simp only [interruptedFlag, decide_eq_false_iff_not, not_lt] at h
      exact List.take_of_length_le h

/-- C2 amended theorem: in an interrupt-free run, the sequence of
persisted records is exactly one record per image whose analyze call
returned a result, in enumeration order — a per-image failure (raised
and caught, or captured in the result) never stops later images from
being processed — and the success counter counts the successful
results. When the engine raises, the loop continues but no record is
written for that image. -/
theorem batch_isolation_amended (fs : List FsEntry)
    (analyze : String → Except String OCRResult) (d : String) (fmt : Bool) :
    (mainRun true fs true analyze d fmt none).writes =
      (find_images fs).filterMap
        (writeOf analyze d (if fmt then ".jsonl" else ".json")) ∧
    (mainRun true fs true analyze d fmt none).successCount =
      ((find_images fs).filter (okSuccess analyze)).length := by
  by_cases he : (find_images fs).isEmpty = true
  · have hnil : find_images fs = [] := by simpa [List.isEmpty_iff] using he
    simp [mainRun, hnil]
  · constructor
    · rw [← runLoop_writes analyze d (if fmt then ".jsonl" else ".json")
        (find_images fs)]
      simp [mainRun, he, interruptedFlag]
    · rw [← runLoop_count analyze d (if fmt then ".jsonl" else ".json")
        (find_images fs)]
      simp [mainRun, he, interruptedFlag]

/-- C2 counterexample engine: the remote engine on a batch where file
"a.png" has vanished between enumeration and analysis (its exists()
check fails, so analyze raises FileNotFoundError) while "b.png" is
served a normal full-text response. -/
def missingFileVision : String → Except String OCRResult :=
  fun p =>
    analyze_image_with_apikey p "k" (decide (p ≠ "a.png"))
      (.response 200 "" [⟨some ⟨some "hi"⟩, [], none⟩])

/-- C2 counterexample: two images are enumerated but only one record is
written. The FileNotFoundError raised for "a.png" is caught by the loop,
which continues to "b.png", but no record is persisted for "a.png" — so
"exactly one persisted record per enumerated image" fails. -/
theorem batch_one_record_per_image_cex :
    (find_images [⟨"a.png", true⟩, ⟨"b.png", true⟩]).length = 2 ∧
    (mainRun true [⟨"a.png", true⟩, ⟨"b.png", true⟩] true missingFileVision
        "out" false none).writes =
      [("out/b.json",
        { image := "b.png", engine := "vision_api", success := true,
          text := some "hi", labels := [], confidence := none,
          error := none })] ∧
    (mainRun true [⟨"a.png", true⟩, ⟨"b.png", true⟩] true missingFileVision
        "out" false none).writes.length ≠
      (find_images [⟨"a.png", true⟩, ⟨"b.png", true⟩]).length := by
  refine ⟨by decide, by decide, by decide⟩

/-- C3 counterexample: with a missing image file, the remote engine's
analyze propagates a raised FileNotFoundError instead of returning a
result with the error field set. -/
theorem engine_never_raises_cex :
    analyze_image_with_apikey "img.png" "key" false (.response 200 "" []) =
      .error "Image file not found: img.png" ∧
    ∀ r, analyze_image_with_apikey "img.png" "key" false (.response 200 "" []) ≠
      .ok r := by
  refine ⟨rfl, ?_⟩
  intro r h
  exact Except.noConfusion h

/-- C3 amended: the local engine never raises — a missing file and a
processing exception both yield a result with the error field set — and
the remote engine returns a result on every per-image failure except its
missing-file precondition check, which raises; with the file present and
a key configured, the remote analyze always returns a result. -/
theorem engine_failure_capture_amended :
    (∀ (p : String) (oc : TessOutcome),
        (TesseractEngine.analyze_image p false oc).error =
          some ("Image file not found: " ++ p)) ∧
    (∀ (p msg : String),
        (TesseractEngine.analyze_image p true (.raise msg)).error =
          some ("Tesseract error: " ++ msg)) ∧
    (∀ (p key : String) (oc : HttpOutcome), key ≠ "" →
        ∃ r, analyze_image_with_apikey p key true oc = .ok r) ∧
    (∀ (p key msg : String), key ≠ "" →
        analyze_image_with_apikey p key true (.transportError msg) =
          .ok { image_path := p, engine := "vision_api", error := some msg }) ∧
    (∀ (p key : String) (oc : HttpOutcome), key ≠ "" →
        analyze_image_with_apikey p key false oc =
          .error ("Image file not found: " ++ p)) := by
  refine ⟨?_, ?_, ?_, ?_, ?_⟩
  · intro p oc; rfl
  · intro p msg; rfl
  · intro p key oc hk
    obtain ⟨r, hr, _⟩ := vision_ok_exists p key hk oc
    exact ⟨r, hr⟩
  · intro p key msg hk
    simp [analyze_image_with_apikey, hk]
  · intro p key oc hk
    simp [analyze_image_with_apikey, hk]

/-- C3 amended witness: a concrete transport failure on the remote
engine returns a result instead of raising. -/
theorem engine_failure_capture_amended_witness :
    ∃ r, analyze_image_with_apikey "w.png" "k" true
      (.transportError "net down") = .ok r :=
  engine_failure_capture_amended.2.2.1 "w.png" "k" (.transportError "net down")
    (by decide)

/-- C7: batch driver exit status. Exit code 1 for an invalid input
directory; 0 for an empty batch; 1 when engine construction fails on a
nonempty batch; 130 on interruption of the loop; otherwise the code is 0
or 1 and it is 0 exactly when the success counter equals the number of
images, equivalently when every enumerated image produced a success
result. -/
theorem batch_exit_status (fs : List FsEntry) (isDir initOk : Bool)
    (analyze : String → Except String OCRResult) (d : String) (fmt : Bool)
    (ia : Option Nat) :
    (isDir = false → (mainRun isDir fs initOk analyze d fmt ia).exitCode = 1) ∧
    (isDir = true → find_images fs = [] →
      (mainRun isDir fs initOk analyze d fmt ia).exitCode = 0) ∧
    (isDir = true → initOk = false → find_images fs ≠ [] →
      (mainRun isDir fs initOk analyze d fmt ia).exitCode = 1) ∧
    (isDir = true → initOk = true →
      interruptedFlag ia (find_images fs).length = true →
      (mainRun isDir fs initOk analyze d fmt ia).exitCode = 130) ∧
    (isDir = true → initOk = true →
      interruptedFlag ia (find_images fs).length = false →
      ((mainRun isDir fs initOk analyze d fmt ia).exitCode = 0 ∨
        (mainRun isDir fs initOk analyze d fmt ia).exitCode = 1) ∧
      ((mainRun isDir fs initOk analyze d fmt ia).exitCode = 0 ↔
        (mainRun isDir fs initOk analyze d fmt ia).successCount =
          (find_images fs).length) ∧
      ((mainRun isDir fs initOk analyze d fmt ia).exitCode = 0 ↔
        ∀ img ∈ find_images fs, okSuccess analyze img = true)) := by
  refine ⟨?_, ?_, ?_, ?_, ?_⟩
  · intro hdir; simp [mainRun, hdir]
  · intro hdir hnil; simp [mainRun, hdir, hnil]
  · intro hdir hinit hne
    have he : (find_images fs).isEmpty = false := by
      simpa [List.isEmpty_iff] using hne
    simp [mainRun, hdir, hinit, he]
  · intro hdir hinit hint
    have hne : find_images fs ≠ [] := by
      intro hnil
      rw [hnil] at hint
      cases ia with
      | none => simp [interruptedFlag] at hint
      | some k => simp [interruptedFlag] at hint
    have he : (find_images fs).isEmpty = false := by
      simpa [List.isEmpty_iff] using hne
    simp [mainRun, hdir, hinit, he, hint]
  · intro hdir hinit hint
    by_cases he : (find_images fs).isEmpty = true
    · have hnil : find_images fs = [] := by simpa [List.isEmpty_iff] using he
      refine ⟨?_, ?_, ?_⟩
      · left; simp [mainRun, hdir, hnil]
      · simp [mainRun, hdir, hnil]
      · simp [mainRun, hdir, hnil]
    · have hproc : (find_images fs).take (ia.getD (find_images fs).length) =
          find_images fs :=
        take_getD_of_not_interrupted (find_images fs) ia hint
      have hcode : (mainRun isDir fs initOk analyze d fmt ia).exitCode =
          (if (runLoop analyze d (if fmt then ".jsonl" else ".json")
              (find_images fs)).2 = (find_images fs).length then 0 else 1) := by
        simp [mainRun, hdir, hinit, he, hint, hproc]
      have hcount : (mainRun isDir fs initOk analyze d fmt ia).successCount =
          (runLoop analyze d (if fmt then ".jsonl" else ".json")
            (find_images fs)).2 := by
        simp [mainRun, hdir, hinit, he, hint, hproc]
      by_cases hall : (runLoop analyze d (if fmt then ".jsonl" else ".json")
          (find_images fs)).2 = (find_images fs).length
      · refine ⟨Or.inl ?_, ?_, ?_⟩
        · rw [hcode, if_pos hall]
        · rw [hcode, if_pos hall, hcount]
          simp [hall]
        · rw [hcode, if_pos hall]
          simp only [true_iff]
          rw [runLoop_count] at hall
          exact (filter_length_eq_iff (okSuccess analyze) (find_images fs)).mp hall
      · refine ⟨Or.inr ?_, ?_, ?_⟩
        · rw [hcode, if_neg hall]
        · rw [hcode, if_neg hall, hcount]
          constructor
          · intro h; exact absurd h one_ne_zero
          · intro h; exact absurd h hall
        · rw [hcode, if_neg hall]
          constructor
          · intro h; exact absurd h one_ne_zero
          · intro hforall
            exfalso
            apply hall
            rw [runLoop_count]
            exact (filter_length_eq_iff (okSuccess analyze)
              (find_images fs)).mpr hforall

/-- C7 witness: the theorem applied to a run on an invalid input
directory, which exits with code 1. -/
theorem batch_exit_status_witness :
    (mainRun false [] true (fun p => Except.error p) "out" false
      none).exitCode = 1 :=
  (batch_exit_status [] false true (fun p => Except.error p) "out" false
    none).1 rfl

/-- C10 engine: every image is analyzed successfully, with the image
path recorded in the result so the two records are distinguishable. -/
def collideEngine : String → Except String OCRResult :=
  fun p => .ok { image_path := p, engine := "vision_api", full_text := some p }

/-- C10: the persisted record's path is computed from the image's stem
and the chosen format extension only, ignoring the image's subdirectory;
two enumerated images with equal stems in different subdirectories both
write to the same output file and the later-ordered image's record
overwrites the earlier one's. -/
theorem output_path_stem_collision (d ext i1 i2 : String)
    (h : stem i1 = stem i2) :
    outFile d i1 ext = outFile d i2 ext ∧
    (mainRun true [⟨"a/x.png", true⟩, ⟨"b/x.jpg", true⟩] true collideEngine
        "out" false none).writes =
      [("out/x.json",
        { image := "a/x.png", engine := "vision_api", success := true,
          text := some "a/x.png", labels := [], confidence := none,
          error := none }),
       ("out/x.json",
        { image := "b/x.jpg", engine := "vision_api", success := true,
          text := some "b/x.jpg", labels := [], confidence := none,
          error := none })] ∧
    lastWrite (mainRun true [⟨"a/x.png", true⟩, ⟨"b/x.jpg", true⟩] true
        collideEngine "out" false none).writes "out/x.json" =
      some { image := "b/x.jpg", engine := "vision_api", success := true,
             text := some "b/x.jpg", labels := [], confidence := none,
             error := none } := by
  refine ⟨?_, by decide, by decide⟩
  simp [outFile, h]

/-- C10 witness: the two colliding paths of the collision example share
a stem, so their output files coincide. -/
theorem output_path_stem_collision_witness :
    outFile "o" "a/x.png" ".json" = outFile "o" "b/x.jpg" ".json" :=
  (output_path_stem_collision "o" ".json" "a/x.png" "b/x.jpg" (by decide)).1

end VisCli
